import Mathlib

/-!
Verification development for the user table sync service
(`userTableSync.js`).  The service copies rows of a source `users` table
into a chat application's `users` table.  This file gives a shallow
embedding of the engine's pure core — the record transformer, the retry
and backoff logic, the batch pagination, the scheduler mutual exclusion,
the reconnection logic and the health evaluation — and proves the
specification claims about them.

Conventions of the embedding:
* SQL `NULL` / absent JS values are `Option.none`.
* JS numbers that hold integers are `Nat` or `Int` (timestamps are epoch
  milliseconds as `Int` for source rows, `Nat` for the engine clock).
* Strings are Lean `String`s; the ids and phones involved are ASCII, so
  JS UTF-16 code-unit operations (`substring`, `replace`) coincide with
  the character-list operations used here.
-/

/-! ## JS string and number helpers -/

/-- Decimal digit character, as produced by JS `Number.prototype.toString`
for a digit value below 10.  Total with default character `0`; the engine
only applies it to values below 10 (remainders mod 10). -/
def digitChar (d : Nat) : Char :=
  if d = 1 then '1' else if d = 2 then '2' else if d = 3 then '3'
  else if d = 4 then '4' else if d = 5 then '5' else if d = 6 then '6'
  else if d = 7 then '7' else if d = 8 then '8' else if d = 9 then '9'
  else '0'

/-- Digit accumulator for `natToDecimal`; `fuel` bounds the number of
digits rendered.  Mirrors the repeated divide-by-ten rendering JS uses
for integer `toString`.  On fuel exhaustion it still emits a digit, so
the output is a digit string for every input. -/
def natToDecimalGo : Nat → Nat → List Char → List Char
  | 0, n, acc => digitChar (n % 10) :: acc
  | fuel + 1, n, acc =>
    if n < 10 then digitChar n :: acc
    else natToDecimalGo fuel (n / 10) (digitChar (n % 10) :: acc)

/-- JS `Number.prototype.toString(10)` for the nonnegative integers the
engine renders.  The values rendered by `sanitizePhone` come from eight
hex characters, hence are below `2 ^ 32 < 10 ^ 10`; a fuel of 20 digits
is never exhausted for them. -/
def natToDecimal (n : Nat) : String :=
  ⟨natToDecimalGo 20 n []⟩

/-- JS `String.prototype.padStart(n, c)` for a single-character pad. -/
def padStart (s : String) (n : Nat) (c : Char) : String :=
  ⟨List.replicate (n - s.data.length) c ++ s.data⟩

/-- JS `String.prototype.substring(0, n)`: the first `n` characters. -/
def strTake (s : String) (n : Nat) : String :=
  ⟨s.data.take n⟩

/-- JS global dash `replace` on the user id: remove every dash. -/
def stripDashes (s : String) : String :=
  ⟨s.data.filter (fun c => c != '-')⟩

/-- JS `String.prototype.trim`: strip whitespace from both ends. -/
def jsTrim (s : String) : String :=
  ⟨((s.data.dropWhile Char.isWhitespace).reverse.dropWhile Char.isWhitespace).reverse⟩

/-- JS `String.prototype.toLowerCase` on the ASCII strings the engine
compares (role names): lowercase every character. -/
def jsToLowerCase (s : String) : String :=
  ⟨s.data.map Char.toLower⟩

/-- The characters JS `parseInt` accepts in base 16. -/
def isHexDigitJS (c : Char) : Bool :=
  c.isDigit || (decide ('a' ≤ c) && decide (c ≤ 'f')) || (decide ('A' ≤ c) && decide (c ≤ 'F'))

/-- Value of a base-16 digit character. -/
def hexVal (c : Char) : Nat :=
  if c.isDigit then c.toNat - 48
  else if 'a' ≤ c ∧ c ≤ 'f' then c.toNat - 87
  else if 'A' ≤ c ∧ c ≤ 'F' then c.toNat - 55
  else 0

/-- JS `parseInt(s, 16)`: skip leading whitespace, a `+` sign and an
optional `0x`/`0X` prefix, then read the longest prefix of hex digits;
`none` models the `NaN` result when no digit is found.  A minus sign is
not modelled: `sanitizePhone` always strips every dash from its argument
before parsing, so the parsed string never contains one. -/
def parseIntHexJS (s : String) : Option Nat :=
  let cs := s.data.dropWhile Char.isWhitespace
  let cs := match cs with
    | '+' :: rest => rest
    | other => other
  let cs := if cs.take 2 = ['0', 'x'] ∨ cs.take 2 = ['0', 'X'] then cs.drop 2 else cs
  let digits := cs.takeWhile isHexDigitJS
  if digits.isEmpty then none
  else some (digits.foldl (fun acc c => acc * 16 + hexVal c) 0)

/-! ## Data model

`SourceUserRecord`: one row of the source `users` table, with the columns
the sync selects (`bulkSyncUsers` query).  Nullable columns are `Option`. -/

structure SourceUser where
  id : Option String
  first_name : Option String
  last_name : Option String
  email : Option String
  phone : Option String
  email_verified : Option Bool
  phone_verified : Option Bool
  password : Option String
  auth_provider : Option String
  google_id : Option String
  facebook_id : Option String
  role : Option String
  status : String
  customer_preferences : Option String
  profile_picture : Option String
  notification_via_app : Option Bool
  notification_via_email : Option Bool
  notification_via_sms : Option Bool
  terms_and_conditions : Option Bool
  average_rating : Option Int
  total_ratings : Option Nat
  total_hires : Option Nat
  total_views : Option Nat
  last_hired_at : Option Int
  is_verified : Option Bool
  is_featured : Option Bool
  search_boost : Option Nat
  created_at : Int
  updated_at : Int
  bio : Option String
deriving Repr, DecidableEq

/-- `notificationSettings` of the metadata blob (`buildMetaData`). -/
structure NotificationSettings where
  app : Bool
  email : Bool
  sms : Bool
deriving Repr, DecidableEq

/-- `ratings` of the metadata blob (`buildMetaData`). -/
structure RatingsMeta where
  average : Option Int
  total : Nat
  totalHires : Nat
  totalViews : Nat
  lastHiredAt : Option Int
deriving Repr, DecidableEq

/-- `verification` of the metadata blob (`buildMetaData`). -/
structure VerificationMeta where
  isVerified : Bool
  isFeatured : Bool
  searchBoost : Nat
deriving Repr, DecidableEq

/-- The JSON metadata blob attached to every destination record. -/
structure UserMetaData where
  emailVerified : Bool
  phoneVerified : Bool
  authProvider : Option String
  googleId : Option String
  facebookId : Option String
  status : String
  customerPreferences : Option String
  notificationSettings : NotificationSettings
  termsAccepted : Bool
  ratings : RatingsMeta
  verification : VerificationMeta
  bio : Option String
  hasPassword : Bool
deriving Repr, DecidableEq

/-- What the JS expression `roleMapping[sourceRole?.toLowerCase()] ||
`customer`` can evaluate to: a destination role string from the
table (or the default), or — for a key the object literal inherits
from `Object.prototype`, such as `constructor` or `__proto__` — the
truthy inherited value (a method, or the prototype itself), which
`||` keeps.  The inherited value is not a string; it is recorded here
by the key that reached it. -/
inductive RoleResult where
  | role (dest : String)
  | inheritedObject (key : String)
deriving Repr, DecidableEq

/-- `DestinationUserRecord`: the chat `users` row produced by
`transformUserData`. -/
structure ChatUser where
  id : String
  externalId : String
  name : String
  phone : String
  email : Option String
  role : RoleResult
  socketId : Option String
  isOnline : Bool
  lastSeen : Option Int
  avatar : Option String
  metaData : UserMetaData
  createdAt : Int
  updatedAt : Int
  firstName : Option String
  lastName : Option String
deriving Repr, DecidableEq

/-! ## Record Transformer -/

/-- `buildFullName` (source lines 226-239): trimmed first and last name
concatenation.  JS `user.first_name?.trim() || ''` yields the empty
string both for a missing name and for a whitespace-only name; the
empty-name fallback is a fixed prefix plus the first eight characters of
the id. -/
def buildFullName (u : SourceUser) (uid : String) : String :=
  let firstName := (u.first_name.map jsTrim).getD ""
  let lastName := (u.last_name.map jsTrim).getD ""
  if firstName ≠ "" ∧ lastName ≠ "" then firstName ++ " " ++ lastName
  else if firstName ≠ "" then firstName
  else if lastName ≠ "" then lastName
  else "User " ++ strTake uid 8

/-- The deterministic placeholder phone of `sanitizePhone` (lines
244-247 and 255-257): first eight hex characters of the dash-stripped
id, parsed base 16, rendered in decimal, truncated to nine characters,
left-padded to nine characters with zeros and prefixed with `9`.  A
failed parse renders as the string `NaN`, exactly like JS string
interpolation of `parseInt`'s `NaN`. -/
def placeholderPhone (userId : String) : String :=
  let hexPart := strTake (stripDashes userId) 8
  let numericPart :=
    match parseIntHexJS hexPart with
    | some n => strTake (natToDecimal n) 9
    | none => "NaN"
  "9" ++ padStart numericPart 9 '0'

/-- `sanitizePhone` (lines 242-261): a missing, empty or whitespace-only
phone gets the placeholder; otherwise all non-digit characters are
stripped, and if nothing remains the placeholder is used as well. -/
def sanitizePhone (phone : Option String) (userId : String) : String :=
  match phone with
  | none => placeholderPhone userId
  | some p =>
    if jsTrim p = "" then placeholderPhone userId
    else
      let cleaned : String := ⟨p.data.filter Char.isDigit⟩
      if cleaned = "" then placeholderPhone userId
      else cleaned

/-- The fixed role table of `mapRole` (lines 265-272), in source order. -/
def roleMapping : List (String × String) :=
  [("customer", "customer"),
   ("service_provider", "usta"),
   ("provider", "usta"),
   ("admin", "administrator"),
   ("administrator", "administrator"),
   ("super_admin", "administrator")]

/-- The own property names of `Object.prototype` in JS: a property read
on an object literal that misses every own key falls back to these
before yielding `undefined`.  Every one of their values (eleven methods
and the `__proto__` accessor, which yields `Object.prototype`) is
truthy. -/
def objectPrototypeKeys : List String :=
  ["constructor", "hasOwnProperty", "isPrototypeOf", "propertyIsEnumerable",
   "toLocaleString", "toString", "valueOf", "__defineGetter__",
   "__defineSetter__", "__lookupGetter__", "__lookupSetter__", "__proto__"]

/-- `mapRole` (lines 264-275): read the lowercased source role as a
property of the `roleMapping` object literal and default to `customer`
when the result is falsy.  A missing role reads key `undefined`, which
misses; an own key of the table yields its (truthy) role string; any
other key falls back to the `Object.prototype` chain — an inherited
property name yields its truthy inherited value, which the JS `||`
keeps, and only a key missing there too yields `undefined` and hence
the `customer` default. -/
def mapRole (sourceRole : Option String) : RoleResult :=
  match sourceRole with
  | none => .role "customer"
  | some r =>
    match roleMapping.lookup (jsToLowerCase r) with
    | some dest => .role dest
    | none =>
      if jsToLowerCase r ∈ objectPrototypeKeys then
        .inheritedObject (jsToLowerCase r)
      else
        .role "customer"

/-- `buildMetaData` (lines 278-308).  JS `x || d` defaults: a `0` rating
or timestamp and an empty bio are falsy and collapse to the default, and
`!!user.password` is false for a missing or empty password. -/
def buildMetaData (u : SourceUser) : UserMetaData :=
  { emailVerified := u.email_verified.getD false
    phoneVerified := u.phone_verified.getD false
    authProvider := u.auth_provider
    googleId := u.google_id
    facebookId := u.facebook_id
    status := u.status
    customerPreferences := u.customer_preferences
    notificationSettings :=
      { app := match u.notification_via_app with | some b => b | none => true
        email := match u.notification_via_email with | some b => b | none => true
        sms := match u.notification_via_sms with | some b => b | none => false }
    termsAccepted := u.terms_and_conditions.getD false
    ratings :=
      { average := match u.average_rating with
          | some v => if v = 0 then none else some v
          | none => none
        total := u.total_ratings.getD 0
        totalHires := u.total_hires.getD 0
        totalViews := u.total_views.getD 0
        lastHiredAt := match u.last_hired_at with
          | some v => if v = 0 then none else some v
          | none => none }
    verification :=
      { isVerified := u.is_verified.getD false
        isFeatured := u.is_featured.getD false
        searchBoost := u.search_boost.getD 0 }
    bio := match u.bio with
      | some b => if b = "" then none else some b
      | none => none
    hasPassword := match u.password with
      | some p => p ≠ ""
      | none => false }

/-- `transformUserData` (lines 205-223).  The JS function reads `u.id`
without a null check and every row reaching it has a non-null id (the
queries filter on `id IS NOT NULL`); a null id is modelled as the
transformer's only failure. -/
def transformUserData (u : SourceUser) : Option ChatUser :=
  match u.id with
  | none => none
  | some uid =>
    some
      { id := uid
        externalId := uid
        name := buildFullName u uid
        phone := sanitizePhone u.phone uid
        email := match u.email_verified with
          | some true => u.email
          | _ => none
        role := mapRole u.role
        socketId := none
        isOnline := false
        lastSeen := none
        avatar := u.profile_picture
        metaData := buildMetaData u
        createdAt := u.created_at
        updatedAt := u.updated_at
        firstName := u.first_name
        lastName := u.last_name }


/-! ## Persistence Gateway: retry with exponential backoff -/

/-- The retry configuration of the service constructor (lines 59-64).
The backoff multiplier is an integer here; the service default is 2. -/
structure RetryConfig where
  maxRetries : Nat
  initialDelayMs : Nat
  maxDelayMs : Nat
  backoffMultiplier : Nat
deriving Repr, DecidableEq

/-- The backoff delay waited before retry number `attempt` (lines
173-176 and 710-713): the initial delay grown exponentially, capped at
the maximum delay. -/
def backoffDelay (cfg : RetryConfig) (attempt : Nat) : Nat :=
  min (cfg.initialDelayMs * cfg.backoffMultiplier ^ (attempt - 1)) cfg.maxDelayMs

/-- What one `retryWithBackoff` invocation did: its result, the backoff
delays waited (in order), and how many times the operation ran. -/
structure RetryTrace (ε α : Type) where
  result : Except ε α
  delays : List Nat
  attempts : Nat
deriving Repr

/-- The loop body of `retryWithBackoff` (lines 170-194), with the loop
variable `attempt` and, structurally, the number `remaining` of loop
iterations still allowed after this one (`remaining` equals
`maxRetries - attempt` at every call).  Each iteration first waits the
backoff delay when `attempt > 0`, then runs the operation; a success
returns at once, and when no iteration remains the last error is
rethrown.  `outcomes a` is the outcome of the operation on its a-th
invocation. -/
def retryGo (cfg : RetryConfig) (outcomes : Nat → Except ε α) :
    Nat → Nat → RetryTrace ε α
  | attempt, remaining =>
    let delays := if attempt > 0 then [backoffDelay cfg attempt] else []
    match outcomes attempt, remaining with
    | .ok v, _ => ⟨.ok v, delays, 1⟩
    | .error e, 0 => ⟨.error e, delays, 1⟩
    | .error _, r + 1 =>
      let rest := retryGo cfg outcomes (attempt + 1) r
      ⟨rest.result, delays ++ rest.delays, 1 + rest.attempts⟩

/-- `retryWithBackoff` (lines 167-197): run the operation up to
`maxRetries + 1` times (`for attempt = 0 .. maxRetries`). -/
def retryWithBackoff (cfg : RetryConfig) (outcomes : Nat → Except ε α) :
    RetryTrace ε α :=
  retryGo cfg outcomes 0 cfg.maxRetries

/-! ## Sync Coordinator: error accounting -/

/-- The counters of `syncStats` touched by error accounting (lines
47-56). -/
structure SyncStats where
  errors : Nat
  consecutiveFailures : Nat
deriving Repr, DecidableEq

/-- The stats update of `logError` (lines 160-162): every logged error
increments both the total error count and the consecutive-failure
count. -/
def logErrorStats (s : SyncStats) : SyncStats :=
  { errors := s.errors + 1, consecutiveFailures := s.consecutiveFailures + 1 }

/-- The stats update on the success path of `retryWithBackoff` (line
187): a successful operation resets the consecutive-failure count,
also when the first attempt succeeds. -/
def retrySuccessStats (s : SyncStats) : SyncStats :=
  { s with consecutiveFailures := 0 }

/-- The overall stats effect of one `retryWithBackoff` invocation: the
reset runs exactly when some attempt succeeded; a rethrown failure
leaves the stats to the caller's `logError`. -/
def retryStatsAfter (cfg : RetryConfig) (outcomes : Nat → Except ε α)
    (s : SyncStats) : SyncStats :=
  match (retryWithBackoff cfg outcomes).result with
  | .ok _ => retrySuccessStats s
  | .error _ => s

/-- The two events that touch the consecutive-failure counter: a
gateway operation succeeding inside `retryWithBackoff`, and a call to
`logError`. -/
inductive StatsEvent where
  | gatewaySuccess
  | errorLogged
deriving Repr, DecidableEq

/-- Apply one event to the stats counters, with the updates taken from
`retrySuccessStats` and `logErrorStats`. -/
def applyStatsEvent (s : SyncStats) : StatsEvent → SyncStats
  | .gatewaySuccess => retrySuccessStats s
  | .errorLogged => logErrorStats s

/-- Run a history of events over the stats counters. -/
def runStatsEvents (events : List StatsEvent) (s : SyncStats) : SyncStats :=
  events.foldl applyStatsEvent s

/-- Whether an event is a logged error. -/
def isErrorLoggedEvent : StatsEvent → Bool
  | .errorLogged => true
  | .gatewaySuccess => false

/-- The number of `errorLogged` events after the last `gatewaySuccess`
event: the length of the trailing all-error run of the history. -/
def trailingErrorCount (events : List StatsEvent) : Nat :=
  (events.reverse.takeWhile isErrorLoggedEvent).length

/-! ## Batch Reconciler: selection and pagination -/

/-- The `WHERE` clause of the `bulkSyncUsers` query with a date filter
(lines 494-499): active status, non-null id, and `updated_at` strictly
after the lower bound. -/
def isEligibleSince (since : Int) (u : SourceUser) : Bool :=
  u.status == "active" && u.id.isSome && decide (since < u.updated_at)

/-- The `ORDER BY updated_at DESC` ordering. -/
def updatedDesc (a b : SourceUser) : Prop :=
  b.updated_at ≤ a.updated_at

instance : DecidableRel updatedDesc := fun a b => by
  unfold updatedDesc; infer_instance

instance : IsTotal SourceUser updatedDesc :=
  ⟨fun a b => le_total b.updated_at a.updated_at⟩

instance : IsTrans SourceUser updatedDesc :=
  ⟨fun _ _ _ hab hbc => le_trans hbc hab⟩

/-- The full result set of the filtered, ordered `bulkSyncUsers` query
(lines 502-515) over a snapshot of the source table: filter, then sort
by `updated_at` descending (a stable sort models the SQL ordering). -/
def bulkSyncQuery (table : List SourceUser) (since : Int) : List SourceUser :=
  List.insertionSort updatedDesc (table.filter (isEligibleSince since))

/-- One page of the query: `LIMIT limit OFFSET offset` applied to the
ordered result set. -/
def pageOf (sorted : List SourceUser) (limit offset : Nat) : List SourceUser :=
  (sorted.drop offset).take limit

/-- The pagination loop of `runScheduledSyncCycle` (lines 844-853) over
the ordered result set `sorted`: fetch the page at `offset` with the
fixed page size 500; `bulkSyncUsers` reports more work exactly when the
page is full (`users.length === limit`, and `false` for an empty page),
and only then does the loop advance the offset by the page size. -/
def scheduledPages (sorted : List SourceUser) (offset : Nat) :
    List (List SourceUser) :=
  if h : (pageOf sorted 500 offset).length = 500 then
    pageOf sorted 500 offset :: scheduledPages sorted (offset + 500)
  else
    [pageOf sorted 500 offset]
termination_by sorted.length - offset
decreasing_by
  simp only [pageOf, List.length_take, List.length_drop] at h
  omega

/-- The lower bound of the scheduled sync (lines 839-840):
`now - intervalMinutes * syncWindowMultiplier` minutes, in epoch
milliseconds. -/
def scheduledSince (now : Int) (intervalMinutes multiplier : Nat) : Int :=
  now - (intervalMinutes * multiplier : Nat) * 60 * 1000

/-- The source records one scheduled batch pass processes, page by
page, over a snapshot `table` of the source store. -/
def runScheduledSyncCyclePages (table : List SourceUser) (now : Int)
    (intervalMinutes multiplier : Nat) : List (List SourceUser) :=
  scheduledPages (bulkSyncQuery table (scheduledSince now intervalMinutes multiplier)) 0

/-! ## Sync Coordinator: batch mutual exclusion

`runScheduledSyncCycle` (lines 824-874) runs on the single-threaded JS
event loop.  Its synchronous prefix — the `isSyncInProgress` check and
either the skip-and-reschedule (lines 828-832) or the mutex acquisition
(line 835) — executes atomically when the scheduled timer fires, and the
`finally` block (lines 867-873) — mutex release and rescheduling via
`scheduleNextSync` (lines 813-821) — executes atomically when the pass
finishes.  The state machine below has exactly these two atomic events.
`inFlight` counts the cycle bodies currently executing between those two
points; it is the observation the no-overlap claim is about.  There is
no queue of pending passes anywhere in the state: a skipped pass is
dropped, not deferred. -/

structure SchedState where
  isSyncInProgress : Bool
  inFlight : Nat
  timerAt : Option Nat
deriving Repr, DecidableEq

/-- The two scheduler events: the scheduled timeout firing at time
`now`, and the running pass completing at time `now`. -/
inductive SchedEvent where
  | trigger (now : Nat)
  | complete (now : Nat)
deriving Repr, DecidableEq

/-- One atomic step of the scheduler, for a configured interval of
`interval` milliseconds (`intervalMinutes * 60 * 1000` at the call
sites). -/
inductive SchedStep (interval : Nat) : SchedState → SchedEvent → SchedState → Prop where
  /-- Lines 828-832: the timer fires while a pass is still running; the
  new pass is skipped and `scheduleNextSync` arms the timer one full
  interval later.  Nothing else changes. -/
  | skip (s : SchedState) (now : Nat)
      (htimer : s.timerAt = some now) (hbusy : s.isSyncInProgress = true) :
      SchedStep interval s (.trigger now) { s with timerAt := some (now + interval) }
  /-- Lines 835-836: the timer fires while idle; the mutex is taken and
  the pass body starts running.  The fired timeout is consumed and no
  new one is armed until the pass finishes. -/
  | start (s : SchedState) (now : Nat)
      (htimer : s.timerAt = some now) (hidle : s.isSyncInProgress = false) :
      SchedStep interval s (.trigger now)
        { isSyncInProgress := true, inFlight := s.inFlight + 1, timerAt := none }
  /-- Lines 867-873: the running pass finishes (normally or not); the
  mutex is released and `scheduleNextSync` arms the timer one interval
  later. -/
  | complete (s : SchedState) (now : Nat) (hbusy : s.isSyncInProgress = true) :
      SchedStep interval s (.complete now)
        { isSyncInProgress := false, inFlight := s.inFlight - 1,
          timerAt := some (now + interval) }

/-- The scheduler state after `startScheduledSync` armed the first timer
(line 809): idle, nothing in flight, timer armed for time `t0`. -/
def schedInit (t0 : Nat) : SchedState :=
  { isSyncInProgress := false, inFlight := 0, timerAt := some t0 }

/-- Reachability of scheduler states from a start state. -/
inductive SchedReachable (interval : Nat) : SchedState → SchedState → Prop where
  | refl (s : SchedState) : SchedReachable interval s s
  | step (s t u : SchedState) (e : SchedEvent)
      (hreach : SchedReachable interval s t) (hstep : SchedStep interval t e u) :
      SchedReachable interval s u

/-- The mutex invariant: the in-flight count is 1 exactly while the
mutex flag is held, 0 otherwise. -/
def SchedInv (s : SchedState) : Prop :=
  s.inFlight = if s.isSyncInProgress then 1 else 0

/-! ## Change Feed Listener: reconnection -/

/-- The real-time connection state the reconnection logic touches
(constructor lines 37-43). -/
structure RealtimeState where
  reconnectAttempts : Nat
  maxReconnectAttempts : Nat
  isListening : Bool
deriving Repr, DecidableEq

/-- `attemptRealtimeReconnection` (lines 702-724): when the attempt
counter has reached the maximum, log and return — the state is left
unchanged and no reconnection timeout is scheduled (`none`).  Otherwise
increment the counter and schedule a reconnection attempt after the
exponential backoff delay (`some delay`). -/
def attemptRealtimeReconnection (cfg : RetryConfig) (s : RealtimeState) :
    RealtimeState × Option Nat :=
  if s.reconnectAttempts ≥ s.maxReconnectAttempts then
    (s, none)
  else
    let attempts := s.reconnectAttempts + 1
    ({ s with reconnectAttempts := attempts }, some (backoffDelay cfg attempts))

/-- The tail of a successful `startRealTimeSync` (lines 689-691): the
listener enters the listening state and the reconnection attempt
counter is reset to zero. -/
def onRealtimeConnected (s : RealtimeState) : RealtimeState :=
  { s with isListening := true, reconnectAttempts := 0 }

/-! ## Sync Coordinator: health evaluation -/

/-- The engine state `getHealthStatus` reads.  `lastSyncTime` and the
clock `now` are epoch milliseconds. -/
structure EngineHealthView where
  consecutiveFailures : Nat
  lastSyncTime : Option Nat
  scheduledSyncActive : Bool
  isSyncInProgress : Bool
  isListening : Bool
deriving Repr, DecidableEq

/-- The `checks` record of the health report. -/
structure HealthChecks where
  realtimeSyncActive : Bool
  scheduledSyncActive : Bool
  recentSyncSuccess : Bool
  lowErrorRate : Bool
deriving Repr, DecidableEq

/-- The health report (the `recommendations` list of operator hint
strings, lines 920-944, does not influence the status and is not
modelled). -/
structure HealthStatus where
  status : String
  checks : HealthChecks
deriving Repr, DecidableEq

/-- Seconds since the last successful sync (lines 895-896), `none` when
no sync has completed.  JS divides the millisecond difference by 1000
as a float and compares it with the integer 600; flooring keeps every
such comparison's verdict. -/
def timeSinceLastSyncSec (s : EngineHealthView) (now : Nat) : Option Nat :=
  s.lastSyncTime.map (fun t => (now - t) / 1000)

/-- The recent-success signal of `getHealthStatus` (line 904 and the
`recentSyncSuccess` check): true when no sync has completed yet
(`timeSinceLastSync === null`) or the last one is under 600 seconds
old. -/
def recentSyncSuccessCheck (s : EngineHealthView) (now : Nat) : Bool :=
  match timeSinceLastSyncSec s now with
  | none => true
  | some v => decide (v < 600)

/-- The `isHealthy` conjunction of `getHealthStatus` (lines 902-905). -/
def isHealthyCheck (s : EngineHealthView) (now : Nat) : Bool :=
  decide (s.consecutiveFailures < 5) && recentSyncSuccessCheck s now && s.isListening

/-- `getHealthStatus` (lines 894-917). -/
def getHealthStatus (s : EngineHealthView) (now : Nat) : HealthStatus :=
  { status := if isHealthyCheck s now then "HEALTHY" else "UNHEALTHY"
    checks :=
      { realtimeSyncActive := s.isListening
        scheduledSyncActive := s.scheduledSyncActive || !s.isSyncInProgress
        recentSyncSuccess := recentSyncSuccessCheck s now
        lowErrorRate := decide (s.consecutiveFailures < 5) } }

/-- The three health signals exactly as claim C6 words them: the
consecutive-failure count below its threshold, the time since the last
successful sync below its threshold (which presupposes that a
successful sync exists), and the listener listening. -/
def claimedHealthySignals (s : EngineHealthView) (now : Nat) : Prop :=
  s.consecutiveFailures < 5 ∧
  (∃ t, s.lastSyncTime = some t ∧ (now - t) / 1000 < 600) ∧
  s.isListening = true

/-! ## Helper lemmas -/

/-- A lookup with a key that is not among the keys of the table finds
nothing. -/
theorem lookup_eq_none_of_not_mem_keys {β : Type} (l : List (String × β)) (k : String)
    (h : k ∉ l.map Prod.fst) : l.lookup k = none := by
  induction l with
  | nil => rfl
  | cons hd tl ih =>
    simp only [List.map_cons, List.mem_cons, not_or] at h
    obtain ⟨h1, h2⟩ := h
    simp [List.lookup, beq_eq_false_iff_ne.mpr h1, ih h2]

/-! ## Claim theorems -/

/-- Claim C1: the claim states that distinct user ids differing in their
first 8 hex characters give distinct placeholder phones.  The code
truncates the decimal rendering to nine characters
(`parseInt(hexPart, 16).toString().substring(0, 9)`), but eight hex
characters can render as ten decimal digits, so two ids differing only
in their eighth hex character collide: `ee6b2800` is 4000000000 and
`ee6b2801` is 4000000001, and both truncate to nine digits as
`400000000`.  This theorem exhibits the collision: the two ids differ in
their first 8 hex characters, yet both placeholders are `9400000000`,
contradicting the claim (and the uniqueness the source comments and the
repository's own diagnostic tool, which keeps ten digits, intend). -/
theorem claim1_placeholder_collision_despite_distinct_hex :
    strTake (stripDashes "ee6b2800-0000-4000-8000-000000000000") 8 ≠
      strTake (stripDashes "ee6b2801-0000-4000-8000-000000000000") 8 ∧
    sanitizePhone none "ee6b2800-0000-4000-8000-000000000000" = "9400000000" ∧
    sanitizePhone none "ee6b2801-0000-4000-8000-000000000000" = "9400000000" := by
  refine ⟨by decide, by decide, by decide⟩

/-- Claim C2: the destination email equals the source email exactly when
the source `email_verified` flag is `true`; any other flag value
(`false` or `NULL`) yields a null destination email, regardless of the
source email value. -/
theorem claim2_unverified_email_never_copied :
    ∀ (u : SourceUser) (t : ChatUser), transformUserData u = some t →
      t.email = (if u.email_verified = some true then u.email else none) := by
  intro u t h
  cases hid : u.id with
  | none => simp [transformUserData, hid] at h
  | some uid =>
    simp only [transformUserData, hid, Option.some.injEq] at h
    subst h
    rcases u.email_verified with _ | b
    · simp
    · cases b <;> simp

/-- A concrete source record with an unverified email, for the C2
witness. -/
def userUnverifiedEmail : SourceUser :=
  { id := some "abc123ef-0000-4000-8000-000000000000"
    first_name := some "Ada"
    last_name := some "Example"
    email := some "ada@example.com"
    phone := some "+1 555 123"
    email_verified := some false
    phone_verified := none
    password := some "secret"
    auth_provider := none
    google_id := none
    facebook_id := none
    role := some "customer"
    status := "active"
    customer_preferences := none
    profile_picture := none
    notification_via_app := none
    notification_via_email := none
    notification_via_sms := none
    terms_and_conditions := some true
    average_rating := none
    total_ratings := none
    total_hires := none
    total_views := none
    last_hired_at := none
    is_verified := none
    is_featured := none
    search_boost := none
    created_at := 1700000000000
    updated_at := 1700000000500
    bio := none }

/-- The transform of `userUnverifiedEmail`. -/
def chatUserUnverifiedEmail : ChatUser :=
  (transformUserData userUnverifiedEmail).get (by decide)

theorem claim2_witness : chatUserUnverifiedEmail.email = none :=
  (claim2_unverified_email_never_copied userUnverifiedEmail chatUserUnverifiedEmail
    (by decide)).trans (by decide)

/-- Claim C6, counterexample: the claim says HEALTHY is reported exactly
when all three signals hold, among them that the time since the last
successful sync is below 600 seconds.  In a state where no sync has ever
completed (`lastSyncTime` is null) there is no last successful sync, yet
the code treats the null as passing and reports HEALTHY. -/
def healthNeverSynced : EngineHealthView :=
  { consecutiveFailures := 0
    lastSyncTime := none
    scheduledSyncActive := false
    isSyncInProgress := false
    isListening := true }

theorem claim6_counterexample_healthy_without_any_sync :
    (getHealthStatus healthNeverSynced 1000000000).status = "HEALTHY" ∧
    ¬ claimedHealthySignals healthNeverSynced 1000000000 := by
  refine ⟨by decide, ?_⟩
  rintro ⟨-, ⟨t, ht, -⟩, -⟩
  exact Option.noConfusion ht

/-- Claim C6, amended: the health evaluation reports HEALTHY exactly
when the consecutive-failure count is below 5, the time since the last
successful sync is below 600 seconds or no sync has completed yet, and
the real-time listener is listening. -/
theorem claim6_health_iff_signals_amended :
    ∀ (s : EngineHealthView) (now : Nat),
      (getHealthStatus s now).status = "HEALTHY" ↔
        (s.consecutiveFailures < 5 ∧
         (s.lastSyncTime = none ∨ ∃ t, s.lastSyncTime = some t ∧ (now - t) / 1000 < 600) ∧
         s.isListening = true) := by
  intro s now
  have h1 : (getHealthStatus s now).status = "HEALTHY" ↔ isHealthyCheck s now = true := by
    cases hc : isHealthyCheck s now <;> simp [getHealthStatus, hc]
  rw [h1]
  unfold isHealthyCheck recentSyncSuccessCheck timeSinceLastSyncSec
  cases hl : s.lastSyncTime with
  | none => simp [Bool.and_eq_true, decide_eq_true_eq]
  | some t => simp [Bool.and_eq_true, decide_eq_true_eq, and_assoc]

/-- Claim C7: once the reconnection attempt counter has reached the
configured maximum, `attemptRealtimeReconnection` leaves the state
unchanged and schedules nothing (a permanent give-up, since every later
call starts from the same state); and every successful (re)connection
resets the attempt counter to zero. -/
theorem claim7_reconnection_cap_and_reset :
    ∀ (cfg : RetryConfig) (s : RealtimeState),
      (s.reconnectAttempts ≥ s.maxReconnectAttempts →
        attemptRealtimeReconnection cfg s = (s, none)) ∧
      (onRealtimeConnected s).reconnectAttempts = 0 := by
  intro cfg s
  refine ⟨fun h => ?_, rfl⟩
  simp [attemptRealtimeReconnection, h]

/-- The service's default retry configuration (lines 59-64). -/
def defaultRetryConfig : RetryConfig :=
  { maxRetries := 3, initialDelayMs := 1000, maxDelayMs := 30000, backoffMultiplier := 2 }

/-- A real-time state that has exhausted its reconnection budget. -/
def exhaustedRealtimeState : RealtimeState :=
  { reconnectAttempts := 10, maxReconnectAttempts := 10, isListening := false }

theorem claim7_witness :
    attemptRealtimeReconnection defaultRetryConfig exhaustedRealtimeState =
      (exhaustedRealtimeState, none) ∧
    (onRealtimeConnected exhaustedRealtimeState).reconnectAttempts = 0 :=
  ⟨(claim7_reconnection_cap_and_reset defaultRetryConfig exhaustedRealtimeState).1 (by decide),
   (claim7_reconnection_cap_and_reset defaultRetryConfig exhaustedRealtimeState).2⟩

/-- Claim C9, counterexample: the claim says every unknown source role
maps to `customer`, but the JS table is an object literal, so a
property read with an unknown key consults the `Object.prototype`
chain first: the role `constructor` is not a key of the fixed table,
yet `roleMapping['constructor']` yields the inherited `Object`
constructor function — truthy, so the `|| 'customer'` default never
applies and the mapped role is not `customer`. -/
theorem claim9_counterexample_prototype_role :
    jsToLowerCase "constructor" ∉ roleMapping.map Prod.fst ∧
    mapRole (some "constructor") ≠ RoleResult.role "customer" ∧
    mapRole (some "constructor") = RoleResult.inheritedObject "constructor" :=
  ⟨by decide, by decide, by decide⟩

/-- Claim C9, amended: role mapping is insensitive to case (it only
depends on the lowercased role); the six table entries map as the
fixed table says; a missing role maps to `customer`; and an unknown
role maps to `customer` unless its lowercase form is a property name
inherited from `Object.prototype` (such as `constructor`, `toString`
or `__proto__`), in which case the lookup returns that truthy
inherited value instead of a role string. -/
theorem claim9_role_mapping_amended :
    mapRole none = RoleResult.role "customer" ∧
    (∀ s t : String, jsToLowerCase s = jsToLowerCase t →
      mapRole (some s) = mapRole (some t)) ∧
    (mapRole (some "customer") = RoleResult.role "customer" ∧
     mapRole (some "service_provider") = RoleResult.role "usta" ∧
     mapRole (some "provider") = RoleResult.role "usta" ∧
     mapRole (some "admin") = RoleResult.role "administrator" ∧
     mapRole (some "administrator") = RoleResult.role "administrator" ∧
     mapRole (some "super_admin") = RoleResult.role "administrator") ∧
    (∀ s : String, jsToLowerCase s ∉ roleMapping.map Prod.fst →
      jsToLowerCase s ∉ objectPrototypeKeys →
      mapRole (some s) = RoleResult.role "customer") ∧
    (∀ s : String, jsToLowerCase s ∉ roleMapping.map Prod.fst →
      jsToLowerCase s ∈ objectPrototypeKeys →
      mapRole (some s) = RoleResult.inheritedObject (jsToLowerCase s)) := by
  refine ⟨rfl, ?_, by decide, ?_, ?_⟩
  · intro s t h
    simp only [mapRole, h]
  · intro s h1 h2
    simp only [mapRole, lookup_eq_none_of_not_mem_keys roleMapping (jsToLowerCase s) h1,
      if_neg h2]
  · intro s h1 h2
    simp only [mapRole, lookup_eq_none_of_not_mem_keys roleMapping (jsToLowerCase s) h1,
      if_pos h2]

theorem claim9_amended_witness :
    mapRole (some "SERVICE_PROVIDER") = mapRole (some "service_provider") ∧
    mapRole (some "service_provider") = RoleResult.role "usta" ∧
    mapRole (some "guest") = RoleResult.role "customer" ∧
    mapRole (some "CONSTRUCTOR") = RoleResult.inheritedObject "constructor" ∧
    mapRole none = RoleResult.role "customer" :=
  ⟨claim9_role_mapping_amended.2.1 "SERVICE_PROVIDER" "service_provider" (by decide),
   claim9_role_mapping_amended.2.2.1.2.1,
   claim9_role_mapping_amended.2.2.2.1 "guest" (by decide) (by decide),
   (claim9_role_mapping_amended.2.2.2.2 "CONSTRUCTOR" (by decide) (by decide)).trans
     (by decide),
   claim9_role_mapping_amended.1⟩


/-- The delays collected by the retry loop from a positive attempt
index onward are consecutive backoff delays starting at that index. -/
theorem retryGo_delays_from {ε α : Type} (cfg : RetryConfig) (o : Nat → Except ε α) :
    ∀ (r a : Nat), 1 ≤ a →
      ∃ k, k ≤ r + 1 ∧
        (retryGo cfg o a r).delays =
          (List.range k).map (fun i => backoffDelay cfg (a + i)) := by
  intro r
  induction r with
  | zero =>
    intro a ha
    have ha' : 0 < a := ha
    refine ⟨1, le_rfl, ?_⟩
    cases ho : o a <;> simp [retryGo, ho, ha', List.range_succ]
  | succ m ih =>
    intro a ha
    have ha' : 0 < a := ha
    cases ho : o a with
    | ok v =>
      refine ⟨1, by omega, ?_⟩
      simp [retryGo, ho, ha', List.range_succ]
    | error e =>
      obtain ⟨k, hk, hd⟩ := ih (a + 1) (by omega)
      refine ⟨k + 1, by omega, ?_⟩
      have hunf : (retryGo cfg o a (m + 1)).delays =
          (if 0 < a then [backoffDelay cfg a] else []) ++ (retryGo cfg o (a + 1) m).delays := by
        simp [retryGo, ho]
      rw [hunf, if_pos ha', hd, List.range_succ_eq_map, List.map_cons, List.map_map,
        List.singleton_append, Nat.add_zero]
      congr 1
      apply List.map_congr_left
      intro i _
      show backoffDelay cfg (a + 1 + i) = backoffDelay cfg (a + Nat.succ i)
      congr 1
      omega

/-- From a positive attempt index on, every iteration waits exactly one
delay, so the attempt count equals the delay count. -/
theorem retryGo_attempts_pos {ε α : Type} (cfg : RetryConfig) (o : Nat → Except ε α) :
    ∀ (r a : Nat), 1 ≤ a →
      (retryGo cfg o a r).attempts = (retryGo cfg o a r).delays.length := by
  intro r
  induction r with
  | zero =>
    intro a ha
    have ha' : 0 < a := ha
    cases ho : o a <;> simp [retryGo, ho, ha']
  | succ m ih =>
    intro a ha
    have ha' : 0 < a := ha
    cases ho : o a with
    | ok v => simp [retryGo, ho, ha']
    | error e =>
      have hrec := ih (a + 1) (by omega)
      simp [retryGo, ho, ha', hrec, Nat.add_comm]

/-- If every attempt the loop may make fails, the loop's result is the
error of the last attempt. -/
theorem retryGo_all_error {ε α : Type} (cfg : RetryConfig) (o : Nat → Except ε α) :
    ∀ (r a : Nat) (f : Nat → ε),
      (∀ b, a ≤ b → b ≤ a + r → o b = .error (f b)) →
      (retryGo cfg o a r).result = .error (f (a + r)) := by
  intro r
  induction r with
  | zero =>
    intro a f h
    have ha := h a le_rfl (by omega)
    simp [retryGo, ha]
  | succ m ih =>
    intro a f h
    have ha := h a le_rfl (by omega)
    have hrec := ih (a + 1) f (fun b hb1 hb2 => h b (by omega) (by omega))
    have hunf : (retryGo cfg o a (m + 1)).result = (retryGo cfg o (a + 1) m).result := by
      simp [retryGo, ha]
    rw [hunf, (by omega : a + (m + 1) = a + 1 + m)]
    exact hrec

/-- The delays of a whole `retryWithBackoff` invocation are the first
consecutive backoff delays. -/
theorem retryWithBackoff_delays {ε α : Type} (cfg : RetryConfig) (o : Nat → Except ε α) :
    ∃ k, k ≤ cfg.maxRetries ∧
      (retryWithBackoff cfg o).delays =
        (List.range k).map (fun i => backoffDelay cfg (i + 1)) := by
  unfold retryWithBackoff
  cases hM : cfg.maxRetries with
  | zero =>
    refine ⟨0, le_rfl, ?_⟩
    cases ho : o 0 <;> simp [retryGo, ho]
  | succ m =>
    cases ho : o 0 with
    | ok v =>
      refine ⟨0, by omega, ?_⟩
      simp [retryGo, ho]
    | error e =>
      obtain ⟨k, hk, hd⟩ := retryGo_delays_from cfg o m 1 le_rfl
      refine ⟨k, by omega, ?_⟩
      have hunf : (retryGo cfg o 0 (m + 1)).delays = (retryGo cfg o 1 m).delays := by
        simp [retryGo, ho]
      rw [hunf, hd]
      apply List.map_congr_left
      intro i _
      congr 1
      omega

/-- The attempt count of a whole invocation is one more than its delay
count. -/
theorem retryWithBackoff_attempts {ε α : Type} (cfg : RetryConfig) (o : Nat → Except ε α) :
    (retryWithBackoff cfg o).attempts = (retryWithBackoff cfg o).delays.length + 1 := by
  unfold retryWithBackoff
  cases hM : cfg.maxRetries with
  | zero => cases ho : o 0 <;> simp [retryGo, ho]
  | succ m =>
    cases ho : o 0 with
    | ok v => simp [retryGo, ho]
    | error e =>
      have hunf1 : (retryGo cfg o 0 (m + 1)).attempts =
          1 + (retryGo cfg o 1 m).attempts := by
        simp [retryGo, ho]
      have hunf2 : (retryGo cfg o 0 (m + 1)).delays = (retryGo cfg o 1 m).delays := by
        simp [retryGo, ho]
      rw [hunf1, hunf2, retryGo_attempts_pos cfg o m 1 le_rfl]
      omega

/-- Claim C5: `retryWithBackoff` runs the operation at most
`maxRetries + 1` times (one initial attempt plus up to `maxRetries`
retries, each preceded by exactly one wait); the wait before retry
number `i + 1` is `backoffDelay` at `i + 1`, that is
`min(initialDelay * multiplier ^ i, maxDelay)`; and when every allowed
attempt fails, the error of the last attempt is rethrown to the
caller. -/
theorem claim5_retry_backoff_behaviour :
    ∀ (ε α : Type) (cfg : RetryConfig) (outcomes : Nat → Except ε α),
      (retryWithBackoff cfg outcomes).attempts ≤ cfg.maxRetries + 1 ∧
      (retryWithBackoff cfg outcomes).attempts =
        (retryWithBackoff cfg outcomes).delays.length + 1 ∧
      (retryWithBackoff cfg outcomes).delays =
        (List.range (retryWithBackoff cfg outcomes).delays.length).map
          (fun i => backoffDelay cfg (i + 1)) ∧
      (∀ f : Nat → ε,
        (∀ a, a ≤ cfg.maxRetries → outcomes a = .error (f a)) →
        (retryWithBackoff cfg outcomes).result = .error (f cfg.maxRetries)) := by
  intro ε α cfg outcomes
  obtain ⟨k, hk, hd⟩ := retryWithBackoff_delays cfg outcomes
  have hlen : (retryWithBackoff cfg outcomes).delays.length = k := by
    rw [hd]; simp
  refine ⟨?_, retryWithBackoff_attempts cfg outcomes, ?_, ?_⟩
  · rw [retryWithBackoff_attempts cfg outcomes, hlen]
    omega
  · rw [hlen, hd]
  · intro f h
    have hall := retryGo_all_error cfg outcomes cfg.maxRetries 0 f
      (fun b hb1 hb2 => h b (by omega))
    simpa using hall

/-- An operation that fails on every attempt, with the attempt index as
the error value. -/
def failAlways : Nat → Except Nat Unit := fun a => .error a

theorem claim5_witness :
    (retryWithBackoff defaultRetryConfig failAlways).attempts = 4 ∧
    (retryWithBackoff defaultRetryConfig failAlways).delays = [1000, 2000, 4000] ∧
    (retryWithBackoff defaultRetryConfig failAlways).result = Except.error 3 := by
  have h := claim5_retry_backoff_behaviour Nat Unit defaultRetryConfig failAlways
  have hlen : (retryWithBackoff defaultRetryConfig failAlways).delays.length = 3 := by
    decide
  refine ⟨?_, ?_, ?_⟩
  · have ha := h.2.1
    rw [hlen] at ha
    exact ha
  · have hd := h.2.2.1
    rw [hlen] at hd
    exact hd.trans (by decide)
  · exact h.2.2.2 (fun a => a) (fun a _ => rfl)

/-- An operation that succeeds on its first attempt. -/
def okAlways : Nat → Except Nat Unit := fun _ => .ok ()

/-- Folding the stats over a history appended with one event. -/
theorem runStatsEvents_append_one (events : List StatsEvent) (e : StatsEvent)
    (s : SyncStats) :
    runStatsEvents (events ++ [e]) s = applyStatsEvent (runStatsEvents events s) e := by
  simp [runStatsEvents, List.foldl_append]

/-- A success at the end of the history clears the trailing error run. -/
theorem trailingErrorCount_append_success (events : List StatsEvent) :
    trailingErrorCount (events ++ [StatsEvent.gatewaySuccess]) = 0 := by
  simp [trailingErrorCount, List.takeWhile, isErrorLoggedEvent]

/-- A logged error at the end of the history extends the trailing error
run by one. -/
theorem trailingErrorCount_append_error (events : List StatsEvent) :
    trailingErrorCount (events ++ [StatsEvent.errorLogged]) =
      trailingErrorCount events + 1 := by
  simp [trailingErrorCount, List.takeWhile, isErrorLoggedEvent]

/-- Claim C10: a successful `retryWithBackoff` invocation — also one
that succeeds on its first attempt — resets the consecutive-failure
counter to zero; every `logError` call increments it (and the total
error count); and over any history of these two events the counter ends
at the number of errors logged since the most recent gateway success
(on top of the starting value when no success ever happened). -/
theorem claim10_consecutive_failure_accounting :
    (∀ (ε α : Type) (cfg : RetryConfig) (outcomes : Nat → Except ε α) (s : SyncStats),
      (∃ v, (retryWithBackoff cfg outcomes).result = .ok v) →
        (retryStatsAfter cfg outcomes s).consecutiveFailures = 0) ∧
    (∀ s : SyncStats,
      (logErrorStats s).consecutiveFailures = s.consecutiveFailures + 1 ∧
      (logErrorStats s).errors = s.errors + 1) ∧
    (∀ (events : List StatsEvent) (s : SyncStats),
      (runStatsEvents events s).consecutiveFailures =
        (if StatsEvent.gatewaySuccess ∈ events then 0 else s.consecutiveFailures) +
          trailingErrorCount events) := by
  refine ⟨?_, fun s => ⟨rfl, rfl⟩, ?_⟩
  · intro ε α cfg outcomes s h
    obtain ⟨v, hv⟩ := h
    simp [retryStatsAfter, hv, retrySuccessStats]
  · intro events
    induction events using List.reverseRecOn with
    | nil => intro s; simp [runStatsEvents, trailingErrorCount]
    | append_singleton evs e ih =>
      intro s
      cases e with
      | gatewaySuccess =>
        rw [runStatsEvents_append_one, trailingErrorCount_append_success]
        simp [applyStatsEvent, retrySuccessStats]
      | errorLogged =>
        rw [runStatsEvents_append_one, trailingErrorCount_append_error]
        simp only [applyStatsEvent, logErrorStats, ih s]
        by_cases hs : StatsEvent.gatewaySuccess ∈ evs
        · simp [hs]
        · simp [hs]
          omega

theorem claim10_witness :
    (runStatsEvents
        [StatsEvent.errorLogged, StatsEvent.gatewaySuccess,
         StatsEvent.errorLogged, StatsEvent.errorLogged]
        { errors := 7, consecutiveFailures := 4 }).consecutiveFailures = 2 ∧
    (retryStatsAfter defaultRetryConfig okAlways
        { errors := 7, consecutiveFailures := 4 }).consecutiveFailures = 0 := by
  constructor
  · exact (claim10_consecutive_failure_accounting.2.2
      [StatsEvent.errorLogged, StatsEvent.gatewaySuccess,
       StatsEvent.errorLogged, StatsEvent.errorLogged]
      { errors := 7, consecutiveFailures := 4 }).trans (by decide)
  · exact claim10_consecutive_failure_accounting.1 Nat Unit defaultRetryConfig okAlways
      { errors := 7, consecutiveFailures := 4 } ⟨(), rfl⟩

/-- Every character `digitChar` can produce is a decimal digit. -/
theorem digitChar_isDigit (d : Nat) : (digitChar d).isDigit = true := by
  unfold digitChar
  split_ifs <;> decide

/-- The decimal renderer only ever emits digit characters. -/
theorem natToDecimalGo_digits :
    ∀ (fuel n : Nat) (acc : List Char), (∀ c ∈ acc, c.isDigit = true) →
      ∀ c ∈ natToDecimalGo fuel n acc, c.isDigit = true := by
  intro fuel
  induction fuel with
  | zero =>
    intro n acc hacc c hc
    simp only [natToDecimalGo, List.mem_cons] at hc
    rcases hc with rfl | hc
    · exact digitChar_isDigit _
    · exact hacc c hc
  | succ f ih =>
    intro n acc hacc c hc
    by_cases hn : n < 10
    · simp only [natToDecimalGo, if_pos hn, List.mem_cons] at hc
      rcases hc with rfl | hc
      · exact digitChar_isDigit _
      · exact hacc c hc
    · simp only [natToDecimalGo, if_neg hn] at hc
      refine ih (n / 10) (digitChar (n % 10) :: acc) ?_ c hc
      intro d hd
      rcases List.mem_cons.mp hd with rfl | hd
      · exact digitChar_isDigit _
      · exact hacc d hd

/-- The decimal rendering of a natural number is a digit string. -/
theorem natToDecimal_digits (n : Nat) : ∀ c ∈ (natToDecimal n).data, c.isDigit = true :=
  natToDecimalGo_digits 20 n [] (by simp)

/-- When the hex prefix of the id parses, the placeholder phone is a
nonempty string of decimal digits. -/
theorem placeholderPhone_digits (uid : String)
    (h : (parseIntHexJS (strTake (stripDashes uid) 8)).isSome = true) :
    0 < (placeholderPhone uid).length ∧
    (placeholderPhone uid).data.all Char.isDigit = true := by
  obtain ⟨n, hn⟩ := Option.isSome_iff_exists.mp h
  have hval : placeholderPhone uid = "9" ++ padStart (strTake (natToDecimal n) 9) 9 '0' := by
    simp [placeholderPhone, hn]
  rw [hval]
  have hdata : ("9" ++ padStart (strTake (natToDecimal n) 9) 9 '0').data =
      '9' :: (padStart (strTake (natToDecimal n) 9) 9 '0').data := by
    rw [String.data_append]
    rfl
  constructor
  · show 0 < ("9" ++ padStart (strTake (natToDecimal n) 9) 9 '0').data.length
    rw [hdata]
    simp
  · show ("9" ++ padStart (strTake (natToDecimal n) 9) 9 '0').data.all Char.isDigit = true
    rw [hdata, List.all_cons, Bool.and_eq_true]
    refine ⟨by decide, ?_⟩
    show (List.replicate (9 - (strTake (natToDecimal n) 9).data.length) '0' ++
        (strTake (natToDecimal n) 9).data).all Char.isDigit = true
    rw [List.all_append, Bool.and_eq_true]
    constructor
    · rw [List.all_eq_true]
      intro c hc
      rw [(List.eq_of_mem_replicate hc : c = Char.ofNat 48)]
      decide
    · rw [List.all_eq_true]
      intro c hc
      exact natToDecimal_digits n c (List.mem_of_mem_take hc)

/-- Claim C8, counterexample: the claim quantifies over every record
with a non-null id, but an id whose dash-stripped prefix contains no
hex digit makes `parseInt` return `NaN`, which JS string interpolation
renders as the letters `NaN` inside the placeholder — not a string of
digits. -/
theorem claim8_counterexample_nonhex_id :
    sanitizePhone none "zzzzzzzz-0000" = "9000000NaN" ∧
    'N' ∈ (sanitizePhone none "zzzzzzzz-0000").data ∧
    'N'.isDigit = false :=
  ⟨by decide, by decide, by decide⟩

/-- Claim C8, amended: for every source record whose id's first eight
dash-stripped characters parse as a base-16 integer (`parseInt` does
not yield `NaN` — true of every UUID-shaped id), `sanitizePhone`
returns a nonempty string of decimal digit characters: a present phone
is reduced to its digits, and a missing, empty, whitespace-only or
digit-free phone is replaced by the numeric placeholder. -/
theorem claim8_sanitized_phone_digits_amended :
    ∀ (phone : Option String) (uid : String),
      (parseIntHexJS (strTake (stripDashes uid) 8)).isSome = true →
        0 < (sanitizePhone phone uid).length ∧
        (sanitizePhone phone uid).data.all Char.isDigit = true := by
  intro phone uid h
  cases phone with
  | none => exact placeholderPhone_digits uid h
  | some p =>
    have hval : sanitizePhone (some p) uid =
        if jsTrim p = "" then placeholderPhone uid
        else if (⟨p.data.filter Char.isDigit⟩ : String) = "" then placeholderPhone uid
        else ⟨p.data.filter Char.isDigit⟩ := rfl
    rw [hval]
    by_cases ht : jsTrim p = ""
    · rw [if_pos ht]
      exact placeholderPhone_digits uid h
    · rw [if_neg ht]
      by_cases hcl : (⟨p.data.filter Char.isDigit⟩ : String) = ""
      · rw [if_pos hcl]
        exact placeholderPhone_digits uid h
      · rw [if_neg hcl]
        constructor
        · have hne : p.data.filter Char.isDigit ≠ [] := by
            intro hnil
            exact hcl (congrArg String.mk hnil)
          show 0 < (p.data.filter Char.isDigit).length
          exact List.length_pos.mpr hne
        · show (p.data.filter Char.isDigit).all Char.isDigit = true
          rw [List.all_eq_true]
          intro c hc
          exact (List.mem_filter.mp hc).2

theorem claim8_witness :
    0 < (sanitizePhone none "abc123ef-1111").length ∧
    (sanitizePhone none "abc123ef-1111").data.all Char.isDigit = true :=
  claim8_sanitized_phone_digits_amended none "abc123ef-1111" (by decide)

/-- The pagination loop always returns at least one page. -/
theorem scheduledPages_ne_nil (sorted : List SourceUser) (offset : Nat) :
    scheduledPages sorted offset ≠ [] := by
  rw [scheduledPages]
  split <;> simp

/-- Concatenating the fetched pages reproduces the ordered result set
from the starting offset on: the loop processes every selected record
exactly once. -/
theorem scheduledPages_flatten :
    ∀ (sorted : List SourceUser) (offset : Nat),
      (scheduledPages sorted offset).flatten = sorted.drop offset := by
  intro sorted offset
  induction offset using scheduledPages.induct sorted with
  | case1 offset h ih =>
    rw [scheduledPages, dif_pos h, List.flatten_cons, ih]
    show (sorted.drop offset).take 500 ++ sorted.drop (offset + 500) = sorted.drop offset
    rw [← List.drop_drop, List.take_append_drop]
  | case2 offset h =>
    rw [scheduledPages, dif_neg h]
    have hlen : (sorted.drop offset).length ≤ 500 := by
      simp only [pageOf, List.length_take, List.length_drop] at h
      simp only [List.length_drop]
      omega
    show (sorted.drop offset).take 500 ++ [].flatten = sorted.drop offset
    simp [List.take_of_length_le hlen]

/-- Every page before the last is full. -/
theorem scheduledPages_dropLast_length :
    ∀ (sorted : List SourceUser) (offset : Nat),
      ∀ p ∈ (scheduledPages sorted offset).dropLast, p.length = 500 := by
  intro sorted offset
  induction offset using scheduledPages.induct sorted with
  | case1 offset h ih =>
    intro p hp
    rw [scheduledPages, dif_pos h,
      List.dropLast_cons_of_ne_nil (scheduledPages_ne_nil sorted (offset + 500))] at hp
    rcases List.mem_cons.mp hp with rfl | hp
    · exact h
    · exact ih p hp
  | case2 offset h =>
    intro p hp
    rw [scheduledPages, dif_neg h] at hp
    simp at hp

/-- The last page is the one that came back short of the page size:
the loop stops exactly there. -/
theorem scheduledPages_getLast_length :
    ∀ (sorted : List SourceUser) (offset : Nat) (p : List SourceUser),
      (scheduledPages sorted offset).getLast? = some p → p.length < 500 := by
  intro sorted offset
  induction offset using scheduledPages.induct sorted with
  | case1 offset h ih =>
    intro p hp
    rw [scheduledPages, dif_pos h, List.getLast?_cons] at hp
    have hsome : (scheduledPages sorted (offset + 500)).getLast?.isSome = true :=
      List.getLast?_isSome.mpr (scheduledPages_ne_nil sorted (offset + 500))
    obtain ⟨q, hq⟩ := Option.isSome_iff_exists.mp hsome
    rw [hq] at hp
    simp only [Option.getD_some, Option.some.injEq] at hp
    subst hp
    exact ih _ hq
  | case2 offset h =>
    intro p hp
    rw [scheduledPages, dif_neg h, List.getLast?_singleton, Option.some.injEq] at hp
    subst hp
    have hle : (pageOf sorted 500 offset).length ≤ 500 := by
      simp [pageOf, List.length_take]
    omega

/-- Claim C4: a scheduled batch pass works on exactly the source
records that are active, have a non-null id and were updated strictly
after `now` minus `intervalMinutes * multiplier` minutes
(`isEligibleSince` of `scheduledSince`); the processed pages
concatenate to the full ordered result set (a permutation of the
filtered table, in descending `updated_at` order); every page before
the last has exactly the page size 500; and the loop stops exactly at
the first page shorter than the page size, which is the last page
fetched. -/
theorem claim4_scheduled_pass_selection_and_pagination :
    ∀ (table : List SourceUser) (now : Int) (intervalMinutes multiplier : Nat),
      (runScheduledSyncCyclePages table now intervalMinutes multiplier).flatten =
        bulkSyncQuery table (scheduledSince now intervalMinutes multiplier) ∧
      (bulkSyncQuery table (scheduledSince now intervalMinutes multiplier)).Perm
        (table.filter (isEligibleSince (scheduledSince now intervalMinutes multiplier))) ∧
      List.Pairwise updatedDesc
        (bulkSyncQuery table (scheduledSince now intervalMinutes multiplier)) ∧
      ((runScheduledSyncCyclePages table now intervalMinutes multiplier).dropLast.all
        (fun p => p.length == 500)) = true ∧
      ((runScheduledSyncCyclePages table now intervalMinutes multiplier).getLast?.all
        (fun p => decide (p.length < 500))) = true := by
  intro table now iM m
  refine ⟨?_, ?_, ?_, ?_, ?_⟩
  · rw [runScheduledSyncCyclePages, scheduledPages_flatten, List.drop_zero]
  · exact List.perm_insertionSort updatedDesc _
  · exact List.sorted_insertionSort updatedDesc _
  · rw [List.all_eq_true]
    intro p hp
    exact beq_iff_eq.mpr (scheduledPages_dropLast_length _ _ p hp)
  · cases hg : (runScheduledSyncCyclePages table now iM m).getLast? with
    | none => rfl
    | some p =>
      simp only [Option.all]
      exact decide_eq_true (scheduledPages_getLast_length _ _ p hg)

/-- Every scheduler step preserves the mutex invariant. -/
theorem schedInv_step {interval : Nat} {s u : SchedState} {e : SchedEvent}
    (hstep : SchedStep interval s e u) (hinv : SchedInv s) : SchedInv u := by
  cases hstep with
  | skip now htimer hbusy =>
    exact hinv
  | start now htimer hidle =>
    unfold SchedInv at hinv ⊢
    rw [hidle] at hinv
    simp at hinv
    simp [hinv]
  | complete now hbusy =>
    unfold SchedInv at hinv ⊢
    rw [hbusy] at hinv
    simp at hinv
    simp [hinv]

/-- Every state the scheduler can reach from its start state satisfies
the mutex invariant. -/
theorem schedInv_reachable {interval t0 : Nat} {s : SchedState}
    (h : SchedReachable interval (schedInit t0) s) : SchedInv s := by
  induction h with
  | refl => rfl
  | step _ _ _ _ hstep ih => exact schedInv_step hstep ih

/-- Claim C3: at most one batch pass is ever in flight — every state
reachable from the armed start state has at most one running cycle
body — and a timer that fires while the mutex flag is held takes the
skip path: the in-flight count and the flag do not change (the pass is
dropped, there is no queue to defer it to) and the only effect is the
timer being rearmed one full interval after the trigger. -/
theorem claim3_batch_mutual_exclusion :
    ∀ (interval t0 : Nat) (s : SchedState),
      (SchedReachable interval (schedInit t0) s → s.inFlight ≤ 1) ∧
      (∀ (now : Nat) (u : SchedState),
        s.isSyncInProgress = true →
        SchedStep interval s (SchedEvent.trigger now) u →
          u.inFlight = s.inFlight ∧ u.isSyncInProgress = true ∧
          u.timerAt = some (now + interval)) := by
  intro interval t0 s
  constructor
  · intro hreach
    have hinv := schedInv_reachable hreach
    unfold SchedInv at hinv
    rw [hinv]
    split <;> omega
  · intro now u hbusy hstep
    cases hstep with
    | skip htimer hbusy2 =>
      exact ⟨rfl, hbusy, rfl⟩
    | start h1 h2 =>
      simp_all

/-- A scheduler state with a pass running and the timer armed to fire
at time 60000. -/
def busySchedState : SchedState :=
  { isSyncInProgress := true, inFlight := 1, timerAt := some 60000 }

theorem claim3_witness :
    (schedInit 5).inFlight ≤ 1 ∧
    ({ busySchedState with timerAt := some (60000 + 60000) } : SchedState).inFlight =
      busySchedState.inFlight ∧
    ({ busySchedState with timerAt := some (60000 + 60000) } : SchedState).timerAt =
      some (60000 + 60000) := by
  have h1 := (claim3_batch_mutual_exclusion 60000 5 (schedInit 5)).1
    (SchedReachable.refl (schedInit 5))
  have h2 := (claim3_batch_mutual_exclusion 60000 5 busySchedState).2 60000
    ({ busySchedState with timerAt := some (60000 + 60000) }) rfl
    (SchedStep.skip busySchedState 60000 rfl rfl)
  exact ⟨h1, h2.1, h2.2.2⟩

/-- A healthy engine state: one recent successful sync, no failures,
listener up. -/
def healthyEngineState : EngineHealthView :=
  { consecutiveFailures := 0
    lastSyncTime := some 4000
    scheduledSyncActive := true
    isSyncInProgress := false
    isListening := true }

theorem claim6_witness : (getHealthStatus healthyEngineState 5000).status = "HEALTHY" :=
  (claim6_health_iff_signals_amended healthyEngineState 5000).mpr
    ⟨by decide, Or.inr ⟨4000, rfl, by decide⟩, rfl⟩

theorem claim4_witness :
    (runScheduledSyncCyclePages [] 0 1 3).flatten =
      bulkSyncQuery [] (scheduledSince 0 1 3) ∧
    (bulkSyncQuery [] (scheduledSince 0 1 3)).Perm
      (List.filter (isEligibleSince (scheduledSince 0 1 3)) []) ∧
    List.Pairwise updatedDesc (bulkSyncQuery [] (scheduledSince 0 1 3)) ∧
    ((runScheduledSyncCyclePages [] 0 1 3).dropLast.all
      (fun p => p.length == 500)) = true ∧
    ((runScheduledSyncCyclePages [] 0 1 3).getLast?.all
      (fun p => decide (p.length < 500))) = true :=
  claim4_scheduled_pass_selection_and_pagination [] 0 1 3
